import Mathlib

/-!
Verification of the rueidis-cache caching middleware.

The development shallowly embeds the library: byte payloads are lists of
naturals, the backing store is a partial map from string keys to payloads,
fallible Go functions returning `([]byte, error)` become `Except String`
values, and the OpenTelemetry instruments become explicit counter states
threaded through the hook functions.  Parts of the cache core whose source
is not in the repository snapshot (the codec pipeline, MGet batching, the
Upsert CAS protocol and the hook-chain fold) are modelled from the written
specification; the `cacheotel` instrumentation is translated directly from
its Go source.
-/

namespace RueidisCache

/-- Byte payloads stored in Redis, as lists of byte values. -/
abbrev Bytes := List Nat

/-- Redis keys. -/
abbrev Key := String

/- ### Codec pipeline (modelled from the spec) -/

/-- Modelled from the spec (the cache core's pipeline source is not in the
snapshot): the byte payload stored under a key is always
`compress(encode(value))`. -/
def toStoredBytes {α : Type} (encode : α → Bytes) (compress : Bytes → Bytes)
    (v : α) : Bytes :=
  compress (encode v)

/-- Modelled from the spec: decoding always applies
`decode(decompress(bytes))`. -/
def fromStoredBytes {α : Type} (decode : Bytes → Option α)
    (decompress : Bytes → Option Bytes) (b : Bytes) : Option α :=
  (decompress b).bind decode

/-- Claim C1: for every value acceptable to the codec and every configured
compressor satisfying the contract, `decode(decompress(compress(encode v)))`
yields the original value. -/
theorem c1_roundtrip {α : Type} (encode : α → Bytes) (decode : Bytes → Option α)
    (compress : Bytes → Bytes) (decompress : Bytes → Option Bytes)
    (hcodec : ∀ v, decode (encode v) = some v)
    (hcomp : ∀ b, decompress (compress b) = some b) (v : α) :
    fromStoredBytes decode decompress (toStoredBytes encode compress v) = some v := by
  simp [fromStoredBytes, toStoredBytes, hcomp, hcodec]

/-- A concrete single-byte codec for naturals below 256, used to witness C1. -/
def natEncode (n : Nat) : Bytes := [n]

/-- Decoder matching `natEncode`. -/
def natDecode : Bytes → Option Nat
  | [n] => some n
  | _ => none

/-- The identity compressor (compression is absent by default). -/
def idCompress (b : Bytes) : Bytes := b

/-- Inverse of the identity compressor. -/
def idDecompress (b : Bytes) : Option Bytes := some b

/-- Witness for C1 at the concrete codec `natEncode`/`natDecode` with the
identity compressor and value 5. -/
theorem c1_roundtrip_witness :
    fromStoredBytes natDecode idDecompress (toStoredBytes natEncode idCompress 5) = some 5 :=
  c1_roundtrip natEncode natDecode idCompress idDecompress
    (fun _ => rfl) (fun _ => rfl) 5

/- ### Backing store (modelled from the spec) -/

/-- The backing store as a partial map from keys to raw byte payloads;
absence is a first-class state. -/
abbrev Store := Key → Option Bytes

/-- A store in which no key was ever written. -/
def emptyStore : Store := fun _ => none

/-- Modelled from the spec: `Set` writes the pipelined bytes under the key. -/
def setOp (st : Store) (k : Key) (b : Bytes) : Store :=
  fun q => if q = k then some b else st q

/-- Modelled from the spec: `Delete` removes the entry under the key. -/
def deleteOp (st : Store) (k : Key) : Store :=
  fun q => if q = k then none else st q

/-- The error taxonomy of the cache facade. -/
inductive CacheError where
  | keyNotFound
  | dataCorruption
  | retryableConflict
deriving DecidableEq

/-- Modelled from the spec (the cache core's source is not in the snapshot):
`Get` reads bytes from the store; if absent it fails with `KeyNotFound`;
otherwise it runs the bytes through the inverse pipeline. -/
def getOp {α : Type} (decode : Bytes → Option α) (decompress : Bytes → Option Bytes)
    (st : Store) (k : Key) : Except CacheError α :=
  match st k with
  | none => .error .keyNotFound
  | some b =>
    match fromStoredBytes decode decompress b with
    | some v => .ok v
    | none => .error .dataCorruption

/- ### Batched multi-get (modelled from the spec) -/

/-- Per-key outcome of a batched multi-get. -/
inductive Outcome (α : Type) where
  | found (v : α)
  | notFound
  | decodeFailure
deriving DecidableEq

/-- Modelled from the spec: partition a key sequence into consecutive chunks
of at most `B` keys; `B = 0` means unbounded, a single chunk. -/
def chunkList (B : Nat) : List Key → List (List Key)
  | [] => []
  | k :: ks =>
    if B = 0 then [k :: ks]
    else (k :: ks).take B :: chunkList B ((k :: ks).drop B)
termination_by l => l.length
decreasing_by
  simp only [List.length_drop, List.length_cons]
  omega

/-- Classification of a single key against the store: found-and-decoded,
not-found, or decode-error. -/
def lookupOutcome {α : Type} (decode : Bytes → Option α)
    (decompress : Bytes → Option Bytes) (st : Store) (k : Key) : Outcome α :=
  match st k with
  | none => .notFound
  | some b =>
    match fromStoredBytes decode decompress b with
    | some v => .found v
    | none => .decodeFailure

/-- Modelled from the spec: one store round trip resolves one chunk of keys. -/
def mgetChunk {α : Type} (decode : Bytes → Option α)
    (decompress : Bytes → Option Bytes) (st : Store) (ks : List Key) : List (Outcome α) :=
  ks.map (lookupOutcome decode decompress st)

/-- Modelled from the spec: `MGet` chunks the keys, issues one round trip per
chunk, and concatenates chunk results in chunk order. -/
def mget {α : Type} (B : Nat) (decode : Bytes → Option α)
    (decompress : Bytes → Option Bytes) (st : Store) (keys : List Key) : List (Outcome α) :=
  ((chunkList B keys).map (mgetChunk decode decompress st)).flatten

theorem chunkList_flatten (B : Nat) (keys : List Key) :
    (chunkList B keys).flatten = keys := by
  induction keys using chunkList.induct B with
  | case1 => simp [chunkList]
  | case2 k ks h =>
    rw [chunkList]
    simp [h]
  | case3 k ks h ih =>
    rw [chunkList]
    simp only [if_neg h, List.flatten_cons, ih, List.take_append_drop]

theorem chunkList_all_le (B : Nat) (keys : List Key) :
    (chunkList (B + 1) keys).all (fun c => c.length ≤ B + 1) = true := by
  induction keys using chunkList.induct (B + 1) with
  | case1 => simp [chunkList]
  | case2 k ks h => omega
  | case3 k ks h ih =>
    rw [chunkList]
    simp only [if_neg h, List.all_cons, ih, Bool.and_true, decide_eq_true_eq,
      List.length_take]
    omega

theorem mget_eq_map {α : Type} (B : Nat) (decode : Bytes → Option α)
    (decompress : Bytes → Option Bytes) (st : Store) (keys : List Key) :
    mget B decode decompress st keys = keys.map (lookupOutcome decode decompress st) := by
  unfold mget
  induction keys using chunkList.induct B with
  | case1 => simp [chunkList]
  | case2 k ks h =>
    rw [chunkList]
    simp [h, mgetChunk]
  | case3 k ks h ih =>
    rw [chunkList]
    simp only [if_neg h, List.map_cons, List.flatten_cons, ih, mgetChunk]
    rw [← List.map_append, List.take_append_drop, List.map_cons]

/-- Claim C2: `MGet` partitions the keys into consecutive chunks whose
concatenation is the original sequence, each chunk holds at most `B + 1` keys
when the limit is `B + 1`, the unbounded limit `0` produces a single chunk,
and the concatenated per-chunk outcomes are exactly the per-key outcomes in
the caller's original key order. -/
theorem c2_mget_order {α : Type} (B : Nat) (decode : Bytes → Option α)
    (decompress : Bytes → Option Bytes) (st : Store) (keys : List Key)
    (k : Key) (ks : List Key) :
    (chunkList B keys).flatten = keys ∧
    (chunkList (B + 1) keys).all (fun c => c.length ≤ B + 1) = true ∧
    chunkList 0 (k :: ks) = [k :: ks] ∧
    mget B decode decompress st keys = keys.map (lookupOutcome decode decompress st) :=
  ⟨chunkList_flatten B keys, chunkList_all_le B keys, by simp [chunkList],
    mget_eq_map B decode decompress st keys⟩

/-- Claim C3: `Get` on a key never written, or written and then deleted,
fails with the distinguished `KeyNotFound` error. -/
theorem c3_get_keyNotFound {α : Type} (decode : Bytes → Option α)
    (decompress : Bytes → Option Bytes) (st : Store) (k : Key) (b : Bytes) :
    getOp decode decompress emptyStore k = .error .keyNotFound ∧
    getOp decode decompress (deleteOp (setOp st k b) k) k = .error .keyNotFound := by
  constructor
  · rfl
  · simp [getOp, deleteOp]

/- ### Upsert CAS protocol (modelled from the spec) -/

/-- What an Upsert callback returns: a new value to write, or an abort
signal meaning "do nothing". -/
inductive UpsertAction (α : Type) where
  | write (v : α)
  | abort

/-- Modelled from the spec, Upsert step 2: decode the prior bytes if present
(`none` is the explicit "not present" indicator handed to the callback). -/
def decodePrior {α : Type} (decode : Bytes → Option α)
    (decompress : Bytes → Option Bytes) (st : Store) (k : Key) :
    Except CacheError (Option α) :=
  match st k with
  | none => .ok none
  | some b =>
    match fromStoredBytes decode decompress b with
    | some v => .ok (some v)
    | none => .error .dataCorruption

/-- Modelled from the spec, Upsert step 4: the server-evaluated conditional
write — write the new bytes only if the current raw bytes still equal the
bytes read at step 1 (or the key is still absent). -/
def casWrite (st : Store) (k : Key) (expected : Option Bytes) (newBytes : Bytes) :
    Option Store :=
  if st k = expected then some (setOp st k newBytes) else none

/-- Modelled from the spec: a single Upsert attempt.  The result carries the
resulting store plus a flag that is `true` exactly when a write happened. -/
def upsert {α : Type} (encode : α → Bytes) (compress : Bytes → Bytes)
    (decode : Bytes → Option α) (decompress : Bytes → Option Bytes)
    (st : Store) (k : Key) (cb : Option α → UpsertAction α) :
    Except CacheError (Store × Bool) :=
  match decodePrior decode decompress st k with
  | .error e => .error e
  | .ok prior =>
    match cb prior with
    | .abort => .ok (st, false)
    | .write v =>
      match casWrite st k (st k) (toStoredBytes encode compress v) with
      | some st2 => .ok (st2, true)
      | none => .error .retryableConflict

/-- Claim C4: an Upsert invocation whose callback signals abort performs no
write, leaves the store (hence the stored byte payload under the key)
unchanged, and reports success-with-no-write. -/
theorem c4_upsert_abort {α : Type} (encode : α → Bytes) (compress : Bytes → Bytes)
    (decode : Bytes → Option α) (decompress : Bytes → Option Bytes)
    (st : Store) (k : Key) (cb : Option α → UpsertAction α) (prior : Option α)
    (hdec : decodePrior decode decompress st k = .ok prior)
    (habort : cb prior = .abort) :
    upsert encode compress decode decompress st k cb = .ok (st, false) := by
  unfold upsert
  rw [hdec]
  simp only [habort]

/-- Witness for C4: on the empty store, a constantly aborting callback makes
Upsert return success-with-no-write. -/
theorem c4_upsert_abort_witness :
    upsert natEncode idCompress natDecode idDecompress emptyStore "person"
      (fun _ => UpsertAction.abort) = .ok (emptyStore, false) :=
  c4_upsert_abort natEncode idCompress natDecode idDecompress emptyStore "person"
    (fun _ => UpsertAction.abort) none rfl rfl

/- ### Hook chain (modelled from the spec) -/

/-- A pipeline stage instrumented with a call trace: the stage threads a
list of recorded events alongside the bytes it transforms. -/
def StageFn : Type := List String × Bytes → List String × Bytes

/-- A hook wrap operation takes the "next" function in the chain and returns
a replacement function with the identical signature. -/
def HookWrap : Type := StageFn → StageFn

/-- Modelled from the spec: the hook list is folded over the base function so
that the first-registered hook becomes the outermost wrapper. -/
def composeHooks (hooks : List HookWrap) (base : StageFn) : StageFn :=
  hooks.foldr (fun h acc => h acc) base

/-- An instrumented hook recording an enter event before calling the next
function and an exit event after it returns. -/
def instrHook (nm : String) : HookWrap :=
  fun next => fun p =>
    let q := next (p.1 ++ [nm ++ ":enter"], p.2)
    (q.1 ++ [nm ++ ":exit"], q.2)

/-- The base stage function, recording that the base codec ran. -/
def baseStage (f : Bytes → Bytes) : StageFn :=
  fun p => (p.1 ++ ["base"], f p.2)

theorem composeHooks_instr_trace (names : List String) (f : Bytes → Bytes)
    (tr : List String) (b : Bytes) :
    composeHooks (names.map instrHook) (baseStage f) (tr, b) =
      (tr ++ names.map (fun nm => nm ++ ":enter") ++ ["base"] ++
        (names.map (fun nm => nm ++ ":exit")).reverse, f b) := by
  induction names generalizing tr with
  | nil => simp [composeHooks, baseStage]
  | cons nm rest ih =>
    simp only [List.map_cons, composeHooks, List.foldr_cons, instrHook]
    have step : composeHooks (rest.map instrHook) (baseStage f)
        (tr ++ [nm ++ ":enter"], b) =
        ((tr ++ [nm ++ ":enter"]) ++ rest.map (fun s => s ++ ":enter") ++ ["base"] ++
          (rest.map (fun s => s ++ ":exit")).reverse, f b) := ih (tr ++ [nm ++ ":enter"])
    simp only [composeHooks] at step
    rw [step]
    simp

/-- Claim C5: hooks compose by nesting in registration order — the composed
chain for instrumented hooks `H1` then `H2` records `H1:enter` before
`H2:enter` on the way in, the base function innermost, and the exits in the
reverse order; in general the enter events appear in registration order,
then the base event, then the exit events in reverse registration order. -/
theorem c5_hook_nesting (names : List String) (f : Bytes → Bytes) (b : Bytes) :
    composeHooks ((["H1", "H2"] : List String).map instrHook) (baseStage f) ([], b) =
      (["H1:enter", "H2:enter", "base", "H2:exit", "H1:exit"], f b) ∧
    composeHooks (names.map instrHook) (baseStage f) ([], b) =
      (names.map (fun nm => nm ++ ":enter") ++ ["base"] ++
        (names.map (fun nm => nm ++ ":exit")).reverse, f b) := by
  constructor
  · rw [composeHooks_instr_trace]
    rfl
  · rw [composeHooks_instr_trace]
    rfl

/- ### cacheotel metrics hook (translated from the cacheotel source) -/

/-- Go `([]byte, error)` results of marshalling and compression functions. -/
abbrev ByteResult := Except String Bytes

/-- The counter state of the `metricsHook` instruments: how many times each
histogram was recorded and each error counter incremented. -/
structure MetricState where
  serializationTimeCount : Nat
  serializationErrorsTotal : Nat
  compressionTimeCount : Nat
  compressionErrorsTotal : Nat
deriving DecidableEq

/-- One when the result is an error, zero otherwise — the number of times the Go
code executes an `Add(ctx, 1)` on the error counter. -/
def errCount {β : Type} : Except String β → Nat
  | .error _ => 1
  | .ok _ => 0

/-- Translation of `metricsHook.MarshalHook`: calls `next`, records the serialization-time
histogram once, increments the serialization-error counter iff `next`
errored, and returns `next`'s data and error unchanged. -/
def marshalHook {α : Type} (next : α → ByteResult) (ms : MetricState) (v : α) :
    ByteResult × MetricState :=
  let res := next v
  let ms1 := { ms with serializationTimeCount := ms.serializationTimeCount + 1 }
  let ms2 := { ms1 with
    serializationErrorsTotal := ms1.serializationErrorsTotal + errCount res }
  (res, ms2)

/-- Translation of `metricsHook.UnmarshallHook`: same shape as `MarshalHook` for the decode
direction (the Go `Unmarshaller` fills a target and returns an error; here
the filled target is the payload of the `Except`). -/
def unmarshallHook {α : Type} (next : Bytes → Except String α) (ms : MetricState)
    (b : Bytes) : Except String α × MetricState :=
  let res := next b
  let ms1 := { ms with serializationTimeCount := ms.serializationTimeCount + 1 }
  let ms2 := { ms1 with
    serializationErrorsTotal := ms1.serializationErrorsTotal + errCount res }
  (res, ms2)

/-- Translation of `metricsHook.CompressHook`: records the compression-time histogram once,
increments the compression-error counter iff `next` errored, and forwards
`next`'s result unchanged. -/
def compressHook (next : Bytes → ByteResult) (ms : MetricState) (b : Bytes) :
    ByteResult × MetricState :=
  let res := next b
  let ms1 := { ms with compressionTimeCount := ms.compressionTimeCount + 1 }
  let ms2 := { ms1 with
    compressionErrorsTotal := ms1.compressionErrorsTotal + errCount res }
  (res, ms2)

/-- Translation of `metricsHook.DecompressHook`: identical metric behaviour to
`CompressHook` for the decompression direction. -/
def decompressHook (next : Bytes → ByteResult) (ms : MetricState) (b : Bytes) :
    ByteResult × MetricState :=
  let res := next b
  let ms1 := { ms with compressionTimeCount := ms.compressionTimeCount + 1 }
  let ms2 := { ms1 with
    compressionErrorsTotal := ms1.compressionErrorsTotal + errCount res }
  (res, ms2)

/-- Claim C6: each `metricsHook` wrapper that executes records its
stage-duration histogram exactly once per wrapped call, increments its error
counter exactly when the wrapped function returned an error, and leaves the
other stage's instruments untouched — on both the success and failure paths,
since `next`'s outcome is arbitrary. -/
theorem c6_metrics_once {α : Type} (next1 : α → ByteResult)
    (next2 : Bytes → Except String α) (next3 next4 : Bytes → ByteResult)
    (ms : MetricState) (v : α) (b : Bytes) :
    ((marshalHook next1 ms v).2.serializationTimeCount = ms.serializationTimeCount + 1 ∧
      (marshalHook next1 ms v).2.serializationErrorsTotal =
        ms.serializationErrorsTotal + errCount (next1 v) ∧
      (marshalHook next1 ms v).2.compressionTimeCount = ms.compressionTimeCount ∧
      (marshalHook next1 ms v).2.compressionErrorsTotal = ms.compressionErrorsTotal) ∧
    ((unmarshallHook next2 ms b).2.serializationTimeCount = ms.serializationTimeCount + 1 ∧
      (unmarshallHook next2 ms b).2.serializationErrorsTotal =
        ms.serializationErrorsTotal + errCount (next2 b) ∧
      (unmarshallHook next2 ms b).2.compressionTimeCount = ms.compressionTimeCount ∧
      (unmarshallHook next2 ms b).2.compressionErrorsTotal = ms.compressionErrorsTotal) ∧
    ((compressHook next3 ms b).2.compressionTimeCount = ms.compressionTimeCount + 1 ∧
      (compressHook next3 ms b).2.compressionErrorsTotal =
        ms.compressionErrorsTotal + errCount (next3 b) ∧
      (compressHook next3 ms b).2.serializationTimeCount = ms.serializationTimeCount ∧
      (compressHook next3 ms b).2.serializationErrorsTotal = ms.serializationErrorsTotal) ∧
    ((decompressHook next4 ms b).2.compressionTimeCount = ms.compressionTimeCount + 1 ∧
      (decompressHook next4 ms b).2.compressionErrorsTotal =
        ms.compressionErrorsTotal + errCount (next4 b) ∧
      (decompressHook next4 ms b).2.serializationTimeCount = ms.serializationTimeCount ∧
      (decompressHook next4 ms b).2.serializationErrorsTotal = ms.serializationErrorsTotal) := by
  refine ⟨⟨rfl, rfl, rfl, rfl⟩, ⟨rfl, rfl, rfl, rfl⟩, ⟨rfl, rfl, rfl, rfl⟩,
    ⟨rfl, rfl, rfl, rfl⟩⟩

/-- Claim C7: every `metricsHook` wrapper forwards both the value and the
error of the wrapped function unchanged, so whenever the wrapped function
returns an error the wrapper returns that same non-nil error. -/
theorem c7_metrics_forward {α : Type} (next1 : α → ByteResult)
    (next2 : Bytes → Except String α) (next3 next4 : Bytes → ByteResult)
    (ms : MetricState) (v : α) (b : Bytes) :
    (marshalHook next1 ms v).1 = next1 v ∧
    (unmarshallHook next2 ms b).1 = next2 b ∧
    (compressHook next3 ms b).1 = next3 b ∧
    (decompressHook next4 ms b).1 = next4 b :=
  ⟨rfl, rfl, rfl, rfl⟩

/- ### cacheotel client instrumentation (translated from the cacheotel source) -/

/-- An OpenTelemetry attribute, as a key/value pair of strings. -/
abbrev Attr := String × String

/-- The zero value of an attribute, as produced by Go's `make`. -/
def zeroAttr : Attr := ("", "")

/-- Go's `copy(dst, src)`: the first `min |dst| |src|` slots of `dst` are
overwritten with `src`'s prefix, the rest of `dst` is unchanged. -/
def goCopy {β : Type} (dst src : List β) : List β :=
  src.take (min dst.length src.length) ++ dst.drop (min dst.length src.length)

/-- The observable part of a `rueidis.RedisResult`: its error and whether it
was served from the client-side cache. -/
structure RedisResult where
  err : Option String
  isCacheHit : Bool
deriving DecidableEq

/-- The counter state of the `instrumentingHook` instruments. -/
structure ClientMetrics where
  durationCount : Nat
  errorsTotal : Nat
  clientCacheHits : Nat
deriving DecidableEq

/-- Translation of `instrumentingHook.Do`: builds the attribute list from the base
attributes (`copy(attrs, i.attrs)`) plus a final `command` attribute,
records the duration histogram once, and increments the error counter iff
the response carries an error.  Returns the forwarded response, the
attributes recorded, and the updated counters. -/
def doHook (baseAttrs : List Attr) (cmdName : String) (resp : RedisResult)
    (ms : ClientMetrics) : RedisResult × List Attr × ClientMetrics :=
  let attrs0 := List.replicate (baseAttrs.length + 1) zeroAttr
  let attrs1 := goCopy attrs0 baseAttrs
  let attrs := attrs1.set (attrs1.length - 1) ("command", cmdName)
  let ms1 := { ms with durationCount := ms.durationCount + 1 }
  let ms2 := if resp.err.isSome then { ms1 with errorsTotal := ms1.errorsTotal + 1 }
    else ms1
  (resp, attrs, ms2)

/-- Translation of `instrumentingHook.DoMulti`: the source executes `copy(attrs, attrs)`
(copying the freshly made zero-valued slice onto itself), sets the final
`command` attribute to `pipeline`, records the duration once, and does not
touch the error or cache-hit counters. -/
def doMultiHook (baseAttrs : List Attr) (resps : List RedisResult)
    (ms : ClientMetrics) : List RedisResult × List Attr × ClientMetrics :=
  let attrs0 := List.replicate (baseAttrs.length + 1) zeroAttr
  let attrs1 := goCopy attrs0 attrs0
  let attrs := attrs1.set (attrs1.length - 1) ("command", "pipeline")
  let ms1 := { ms with durationCount := ms.durationCount + 1 }
  (resps, attrs, ms1)

/-- Translation of `instrumentingHook.DoCache`: like `Do`, and additionally increments the
client-cache-hit counter iff the response was a cache hit. -/
def doCacheHook (baseAttrs : List Attr) (cmdName : String) (resp : RedisResult)
    (ms : ClientMetrics) : RedisResult × List Attr × ClientMetrics :=
  let attrs0 := List.replicate (baseAttrs.length + 1) zeroAttr
  let attrs1 := goCopy attrs0 baseAttrs
  let attrs := attrs1.set (attrs1.length - 1) ("command", cmdName)
  let ms1 := { ms with durationCount := ms.durationCount + 1 }
  let ms2 := if resp.err.isSome then { ms1 with errorsTotal := ms1.errorsTotal + 1 }
    else ms1
  let ms3 := if resp.isCacheHit then
    { ms2 with clientCacheHits := ms2.clientCacheHits + 1 } else ms2
  (resp, attrs, ms3)

/-- Translation of `instrumentingHook.DoMultiCache`: copies the base attributes
(`copy(attrs, i.attrs)`), sets the final `command` attribute to `pipeline`,
records the duration once, and does not touch the error or cache-hit
counters. -/
def doMultiCacheHook (baseAttrs : List Attr) (resps : List RedisResult)
    (ms : ClientMetrics) : List RedisResult × List Attr × ClientMetrics :=
  let attrs0 := List.replicate (baseAttrs.length + 1) zeroAttr
  let attrs1 := goCopy attrs0 baseAttrs
  let attrs := attrs1.set (attrs1.length - 1) ("command", "pipeline")
  let ms1 := { ms with durationCount := ms.durationCount + 1 }
  (resps, attrs, ms1)

/-- Counterexample to claim C8 as stated: a `DoMulti` whose single result
carries an error does not increment the error counter (it stays 0), and a
`DoMultiCache` whose single result is a client-cache hit does not increment
the cache-hit counter. -/
theorem c8_multi_counterexample :
    (doMultiHook [] [{ err := some "boom", isCacheHit := false }]
      { durationCount := 0, errorsTotal := 0, clientCacheHits := 0 }).2.2.errorsTotal = 0 ∧
    ¬ ((doMultiHook [] [{ err := some "boom", isCacheHit := false }]
      { durationCount := 0, errorsTotal := 0, clientCacheHits := 0 }).2.2.errorsTotal = 0 + 1) ∧
    (doMultiCacheHook [] [{ err := none, isCacheHit := true }]
      { durationCount := 0, errorsTotal := 0, clientCacheHits := 0 }).2.2.clientCacheHits = 0 := by
  refine ⟨rfl, ?_, rfl⟩
  intro h
  simp [doMultiHook] at h

/-- Claim C8 (amended): `Do` and `DoCache` record the duration histogram
once per call, increment the error counter exactly when the response carries
an error, and `DoCache` increments the cache-hit counter exactly when the
response was a client-cache hit; `DoMulti` and `DoMultiCache` record only
the overall duration — their error and cache-hit counters are never
incremented, regardless of per-result errors or hits — and every hook
forwards the client's response(s) unchanged. -/
theorem c8_telemetry_amended (baseAttrs : List Attr) (cmdName : String)
    (resp : RedisResult) (resps : List RedisResult) (ms : ClientMetrics) :
    ((doHook baseAttrs cmdName resp ms).2.2.durationCount = ms.durationCount + 1 ∧
      (doHook baseAttrs cmdName resp ms).2.2.errorsTotal =
        ms.errorsTotal + (if resp.err.isSome then 1 else 0) ∧
      (doHook baseAttrs cmdName resp ms).2.2.clientCacheHits = ms.clientCacheHits ∧
      (doHook baseAttrs cmdName resp ms).1 = resp) ∧
    ((doCacheHook baseAttrs cmdName resp ms).2.2.durationCount = ms.durationCount + 1 ∧
      (doCacheHook baseAttrs cmdName resp ms).2.2.errorsTotal =
        ms.errorsTotal + (if resp.err.isSome then 1 else 0) ∧
      (doCacheHook baseAttrs cmdName resp ms).2.2.clientCacheHits =
        ms.clientCacheHits + (if resp.isCacheHit then 1 else 0) ∧
      (doCacheHook baseAttrs cmdName resp ms).1 = resp) ∧
    ((doMultiHook baseAttrs resps ms).2.2.durationCount = ms.durationCount + 1 ∧
      (doMultiHook baseAttrs resps ms).2.2.errorsTotal = ms.errorsTotal ∧
      (doMultiHook baseAttrs resps ms).2.2.clientCacheHits = ms.clientCacheHits ∧
      (doMultiHook baseAttrs resps ms).1 = resps) ∧
    ((doMultiCacheHook baseAttrs resps ms).2.2.durationCount = ms.durationCount + 1 ∧
      (doMultiCacheHook baseAttrs resps ms).2.2.errorsTotal = ms.errorsTotal ∧
      (doMultiCacheHook baseAttrs resps ms).2.2.clientCacheHits = ms.clientCacheHits ∧
      (doMultiCacheHook baseAttrs resps ms).1 = resps) := by
  cases hr : resp.err.isSome <;> cases hc : resp.isCacheHit <;>
    simp [doHook, doCacheHook, doMultiHook, doMultiCacheHook, hr, hc]

theorem goCopy_self {β : Type} (l : List β) : goCopy l l = l := by
  simp [goCopy]

theorem goCopy_replicate_succ {β : Type} (z : β) (base : List β) :
    goCopy (List.replicate (base.length + 1) z) base = base ++ [z] := by
  unfold goCopy
  simp [List.drop_replicate, Nat.min_def]

theorem set_append_length {β : Type} (l : List β) (z a : β) :
    (l ++ [z]).set l.length a = l ++ [a] := by
  induction l with
  | nil => rfl
  | cons x xs ih => simp [List.set, ih]

/-- Claim C9: `DoMulti` records its duration histogram with the base
attributes dropped — every slot except the final `command = pipeline`
attribute is zero-valued, because the source copies the fresh slice onto
itself — whereas `Do` and `DoCache` record the histogram with the
configured base attributes followed by the `command` attribute. -/
theorem c9_doMulti_attrs (baseAttrs : List Attr) (cmdName : String)
    (resp : RedisResult) (resps : List RedisResult) (ms : ClientMetrics) :
    (doMultiHook baseAttrs resps ms).2.1 =
      List.replicate baseAttrs.length zeroAttr ++ [("command", "pipeline")] ∧
    (doHook baseAttrs cmdName resp ms).2.1 = baseAttrs ++ [("command", cmdName)] ∧
    (doCacheHook baseAttrs cmdName resp ms).2.1 = baseAttrs ++ [("command", cmdName)] := by
  refine ⟨?_, ?_, ?_⟩
  · show (goCopy (List.replicate (baseAttrs.length + 1) zeroAttr)
        (List.replicate (baseAttrs.length + 1) zeroAttr)).set _ _ = _
    rw [goCopy_self]
    have h1 : List.replicate (baseAttrs.length + 1) zeroAttr =
        List.replicate baseAttrs.length zeroAttr ++ [zeroAttr] := by
      rw [← List.replicate_succ']
    rw [h1]
    have h2 : (List.replicate baseAttrs.length zeroAttr ++ [zeroAttr]).length - 1 =
        (List.replicate baseAttrs.length zeroAttr).length := by
      simp
    rw [h2, set_append_length]
  · show ((goCopy (List.replicate (baseAttrs.length + 1) zeroAttr) baseAttrs).set
        ((goCopy (List.replicate (baseAttrs.length + 1) zeroAttr) baseAttrs).length - 1)
        ("command", cmdName), _).1 = _
    rw [goCopy_replicate_succ]
    have h2 : (baseAttrs ++ [zeroAttr]).length - 1 = baseAttrs.length := by simp
    rw [h2, set_append_length]
  · show ((goCopy (List.replicate (baseAttrs.length + 1) zeroAttr) baseAttrs).set
        ((goCopy (List.replicate (baseAttrs.length + 1) zeroAttr) baseAttrs).length - 1)
        ("command", cmdName), _).1 = _
    rw [goCopy_replicate_succ]
    have h2 : (baseAttrs ++ [zeroAttr]).length - 1 = baseAttrs.length := by simp
    rw [h2, set_append_length]

/- ### cacheotel configuration (translated from cacheotel/config.go) -/

/-- The `cacheotel` configuration: the fields the attribute claims depend
on (`dbSystem` and `attrs`; the meter, pool name and bucket fields do not
interact with them). -/
structure config where
  dbSystem : String
  attrs : List Attr

/-- A `baseOption` applies a mutation to the configuration. -/
abbrev baseOption := config → config

/-- Translation of `newConfig`: starts from `dbSystem = "redis"` and empty attributes,
applies every option in order, then appends the `db.system` attribute. -/
def newConfig (opts : List baseOption) : config :=
  let conf := opts.foldl (fun c o => o c) { dbSystem := "redis", attrs := [] }
  { conf with attrs := conf.attrs ++ [("db.system", conf.dbSystem)] }

/-- Translation of `WithAtributes` (sic): replaces the configured attributes. -/
def WithAtributes (atts : List Attr) : baseOption :=
  fun conf => { conf with attrs := atts }

/-- Translation of `WithDBSystem`: sets the `dbSystem` value. -/
def WithDBSystem (system : String) : baseOption :=
  fun conf => { conf with dbSystem := system }

/-- Claim C10: for every option list, the resulting attribute list is
non-empty and ends with the `db.system` attribute carrying the configured
`dbSystem` value (`redis` by default), because `newConfig` appends that
attribute after all options — including the replacing `WithAtributes` —
have been applied. -/
theorem c10_config_attrs (opts : List baseOption) (atts : List Attr) (conf : config) :
    (newConfig opts).attrs ≠ [] ∧
    (newConfig opts).attrs.getLast? = some ("db.system", (newConfig opts).dbSystem) ∧
    (newConfig []).attrs = [("db.system", "redis")] ∧
    (WithAtributes atts conf).attrs = atts := by
  refine ⟨?_, ?_, rfl, rfl⟩
  · simp [newConfig]
  · simp [newConfig, List.getLast?_append]

end RueidisCache
